import Mathlib

/-!
Verification of the slack-bolt-aws installation-store core:
a shallow embedding of the installation codec
(packages/common-installation-store/src/InstallationCodec.ts),
the backend-agnostic installation store
(InstallationStoreBase.ts), and the S3/DynamoDB key generators and
storage adapters (packages/bolt-s3, packages/bolt-dynamodb).

Byte buffers are modelled as lists of naturals; external library
primitives (JSON serialization, Brotli, scrypt, the AES-CTR keystream)
are parameters of the development, constrained only by the hypotheses
each theorem states.  Everything written by the repository itself
(framing bytes, key strings, merge logic, reconciliation loops) is
translated directly from the source.
-/

namespace SlackBoltAws

/-- Byte buffers (node Buffer) as lists of naturals. -/
abbrev Bytes := List Nat

/-- UTF-8 bytes of a string (ASCII algorithm names in practice). -/
def strBytes (s : String) : Bytes := s.toList.map Char.toNat

/-! ## Codec (InstallationCodec.ts) -/

/-- Encryption options; the defaults are
BinaryInstallationCodec.DEFAULT_ENCRYPTION_ALGORITHM. -/
structure EncryptionOptions where
  password : String
  salt : String
  algorithm : String := "aes-256-ctr"
  ivLength : Nat := 16
  keyLength : Nat := 32
deriving DecidableEq, Repr

/-- BinaryInstallationCodecOptions. -/
structure BinaryCodecOptions where
  encryption : Option EncryptionOptions := none
  compression : Bool := false
deriving DecidableEq, Repr

/-- CTR-mode stream cipher: xor the data with the keystream starting at
position i.  Both encryption and decryption are this same operation
(cipher.update/final for an aes-*-ctr cipher). -/
def ctrXor (ks : Nat → Nat) : Nat → Bytes → Bytes
  | _, [] => []
  | i, b :: rest => (b ^^^ ks i) :: ctrXor ks (i + 1) rest

section Codec

variable {α : Type}
variable (jsonEnc : α → Bytes) (jsonDec : Bytes → Option α)
variable (brotliC : Bytes → Bytes) (brotliD : Bytes → Option Bytes)
variable (scrypt : String → String → Nat → Bytes)
variable (keystream : Bytes → Bytes → Bytes → Nat → Nat)

/-- JsonInstallationCodec.encode: Buffer.from(JSON.stringify(installation)). -/
def jsonCodecEncode (r : α) : Bytes := jsonEnc r

/-- JsonInstallationCodec.decode: JSON.parse(data.toString()). -/
def jsonCodecDecode (data : Bytes) : Except String α :=
  match jsonDec data with
  | some r => Except.ok r
  | none => Except.error "JSON parse error"

/-- BinaryInstallationCodec.compressIfNeeded: tag 0x62 ('b', Brotli) or
0x72 ('r', raw). -/
def compressIfNeeded (o : BinaryCodecOptions) (data : Bytes) : Bytes :=
  if o.compression then 0x62 :: brotliC data else 0x72 :: data

/-- BinaryInstallationCodec.encryptIfNeeded: a zero byte when encryption
is off, else algorithm-name length, name, key length, IV length, IV,
ciphertext.  The fresh random IV of each call is the `iv` argument. -/
def encryptIfNeeded (o : BinaryCodecOptions) (iv : Bytes) (data : Bytes) : Bytes :=
  match o.encryption with
  | none => 0 :: data
  | some e =>
      e.algorithm.length ::
        (strBytes e.algorithm ++
          (e.keyLength :: e.ivLength ::
            (iv ++ ctrXor
              (keystream (strBytes e.algorithm) (scrypt e.password e.salt e.keyLength) iv)
              0 data)))

/-- BinaryInstallationCodec.encode: JSON, compress, encrypt, prefix the
format-version byte 1. -/
def binEncode (o : BinaryCodecOptions) (iv : Bytes) (r : α) : Bytes :=
  1 :: encryptIfNeeded scrypt keystream o iv (compressIfNeeded brotliC o (jsonEnc r))

/-- BinaryInstallationCodec.decompressIfNeeded. -/
def decompressIfNeeded (data : Bytes) : Except String Bytes :=
  match data with
  | [] => Except.error "index out of range"
  | code :: rest =>
      if code = 0x62 then
        match brotliD rest with
        | some d => Except.ok d
        | none => Except.error "brotli decompression failed"
      else if code = 0x72 then Except.ok rest
      else Except.error "Detected compression algorithm that is not supported"

/-- BinaryInstallationCodec.decryptIfNeeded: a leading zero byte means no
encryption; otherwise read the algorithm name, key length, IV length and
IV back out of the buffer and apply the CTR keystream to the rest. -/
def decryptIfNeeded (o : BinaryCodecOptions) (data : Bytes) : Except String Bytes :=
  match data with
  | [] => Except.error "index out of range"
  | nlen :: rest =>
      if nlen = 0 then Except.ok rest
      else
        let nameBytes := rest.take nlen
        match rest.drop nlen with
        | kl :: il :: rest2 =>
            let iv := rest2.take il
            let encryptedData := rest2.drop il
            match o.encryption with
            | some e =>
                Except.ok (ctrXor
                  (keystream nameBytes (scrypt e.password e.salt kl) iv) 0 encryptedData)
            | none => Except.error "TypeError: encryption options are missing"
        | _ => Except.error "index out of range"

/-- BinaryInstallationCodec.decodeV1: decrypt, then decompress, then
JSON-parse; a thrown error at any stage propagates. -/
def binDecodeV1 (o : BinaryCodecOptions) (raw : Bytes) : Except String α :=
  Except.bind (decryptIfNeeded scrypt keystream o raw) fun d =>
    Except.bind (decompressIfNeeded brotliD d) fun d2 =>
      match jsonDec d2 with
      | some r => Except.ok r
      | none => Except.error "JSON parse error"

/-- BinaryInstallationCodec.decode: 0x7b means legacy raw JSON, 1 means
the version-1 envelope, anything else is a fatal format error. -/
def binDecode (o : BinaryCodecOptions) (raw : Bytes) : Except String α :=
  match raw with
  | [] => Except.error "index out of range"
  | b :: rest =>
      if b = 0x7b then
        match jsonDec raw with
        | some r => Except.ok r
        | none => Except.error "JSON parse error"
      else if b = 1 then binDecodeV1 jsonDec brotliD scrypt keystream o rest
      else Except.error "Detected format version that is not supported"

end Codec

/-! ## Installation store core (InstallationStoreBase.ts) -/

/-- The user sub-record of an Installation (@slack/oauth). -/
structure UserRec where
  id : String
  token : Option String := none
  refreshToken : Option String := none
  expiresAt : Option Nat := none
  scopes : Option (List String) := none
deriving DecidableEq, Repr

/-- An object carrying an id (installation.enterprise / installation.team). -/
structure IdObj where
  id : String
deriving DecidableEq, Repr

/-- An installation record: the fields the store reads, plus an opaque
payload standing for every other field of the record. -/
structure Installation (α : Type) where
  enterprise : Option IdObj := none
  team : Option IdObj := none
  user : UserRec
  payload : α
deriving DecidableEq, Repr

/-- InstallationQuery (@slack/oauth). -/
structure InstallQuery where
  enterpriseId : Option String := none
  teamId : Option String := none
  userId : Option String := none
deriving DecidableEq, Repr

/-- KeyGeneratorArgs, together with the optional historyVersion. -/
structure KeyGenArgs where
  clientId : String
  enterpriseId : Option String := none
  teamId : Option String := none
  userId : Option String := none
  historyVersion : Option String := none
deriving DecidableEq, Repr

/-- JavaScript truthiness of an optional string: undefined and the empty
string are falsy (the guard `if (query.userId)`). -/
def jsTruthy : Option String → Bool
  | none => false
  | some s => !(s == "")

/-- The field removals performed on the bot record's user sub-record when
no user record is available: delete token, refreshToken, expiresAt and
scopes, keep the id. -/
def stripUserTokens (u : UserRec) : UserRec :=
  { u with token := none, refreshToken := none, expiresAt := none, scopes := none }

section StoreBase

variable {KEY α ε : Type}

/-- The keys fetchInstallation asks the storage for: always the bot-scope
latest key, plus the user-scope latest key when query.userId is truthy. -/
def fetchKeys (keyGen : KeyGenArgs → KEY) (clientId : String) (q : InstallQuery) :
    List KEY :=
  let args : KeyGenArgs :=
    { clientId := clientId, enterpriseId := q.enterpriseId, teamId := q.teamId }
  let keys := [keyGen args]
  if jsTruthy q.userId then keys ++ [keyGen { args with userId := q.userId }] else keys

/-- InstallationStoreBase.fetchInstallation.  `store` is the composition
of Storage.fetch with codec decoding (data ? codec.decode(data) :
undefined); destructuring [app, user] of the fetched list, then the merge
policy, then the not-found error. -/
def fetchInstallation (keyGen : KeyGenArgs → KEY)
    (store : KEY → Option (Installation α)) (clientId : String) (q : InstallQuery) :
    Except String (Installation α) :=
  let fetched := (fetchKeys keyGen clientId q).map store
  let app := fetched[0]?.join
  let user := fetched[1]?.join
  match app with
  | some a =>
      match user with
      | some u => Except.ok { a with user := u.user }
      | none => Except.ok { a with user := stripUserTokens a.user }
  | none =>
      match user with
      | some u => Except.ok u
      | none => Except.error "No valid installation found"

/-- The write set issued by InstallationStoreBase.storeInstallation.
`times n` is the value of the (n+1)-th Date.now() call the body would
make; the source calls Date.now() exactly once, so only `times 0` is
consulted. -/
def storeInstallationWrites (keyGen : KeyGenArgs → KEY)
    (encode : Installation α → Bytes) (clientId : String)
    (historicalDataEnabled : Bool) (times : Nat → Nat) (inst : Installation α) :
    List (KEY × Bytes) :=
  let argsForBot : KeyGenArgs :=
    { clientId := clientId, enterpriseId := inst.enterprise.map IdObj.id,
      teamId := inst.team.map IdObj.id }
  let argsForUser := { argsForBot with userId := some inst.user.id }
  let data := encode inst
  let writes := [(keyGen argsForBot, data), (keyGen argsForUser, data)]
  if historicalDataEnabled then
    let historyVersion := toString (times 0)
    writes ++
      [(keyGen { argsForBot with historyVersion := some historyVersion }, data),
       (keyGen { argsForUser with historyVersion := some historyVersion }, data)]
  else writes

/-- Promise.all over unit-valued writes: resolves exactly when every
write resolves, otherwise surfaces a failure. -/
def promiseAllUnit : List (Except ε Unit) → Except ε Unit
  | [] => Except.ok ()
  | Except.error e :: _ => Except.error e
  | Except.ok _ :: rest => promiseAllUnit rest

/-- InstallationStoreBase.storeInstallation: issue every write of the
write set and await them all.  `writeRes` is the outcome of one
storage.store call. -/
def storeInstallation (keyGen : KeyGenArgs → KEY)
    (encode : Installation α → Bytes) (writeRes : KEY × Bytes → Except ε Unit)
    (clientId : String) (historicalDataEnabled : Bool) (times : Nat → Nat)
    (inst : Installation α) : Except ε Unit :=
  promiseAllUnit
    ((storeInstallationWrites keyGen encode clientId historicalDataEnabled times inst).map
      writeRes)

end StoreBase

/-! ## S3 backend (S3InstallationStore.ts) -/

/-- bolt-s3 SimpleKeyGenerator.generate. -/
def s3Generate (args : KeyGenArgs) : String :=
  let base := args.clientId ++ "/" ++ (args.enterpriseId.getD "none") ++ "-" ++
    (args.teamId.getD "none")
  let historyVersion := args.historyVersion.getD "latest"
  match args.userId with
  | some u => base ++ "/installer-" ++ u ++ "-" ++ historyVersion
  | none => base ++ "/installer-" ++ historyVersion

/-- bolt-s3 SimpleKeyGenerator.generateForDeletion. -/
def s3GenerateForDeletion (args : KeyGenArgs) : String :=
  let base := args.clientId ++ "/" ++ (args.enterpriseId.getD "none") ++ "-" ++
    (args.teamId.getD "none")
  match args.userId with
  | some u => base ++ "/installer-" ++ u ++ "-"
  | none => base ++ "/installer-"

/-- Errors a GetObject call can throw. -/
inductive S3Error where
  | noSuchKey
  | transport (detail : String)
deriving DecidableEq, Repr

/-- The outcome of the GetObject call inside S3Storage.fetch: either a
response whose Body may be absent, or a thrown error. -/
inductive S3GetResponse where
  | ok (body : Option Bytes)
  | err (e : S3Error)
deriving DecidableEq, Repr

/-- S3Storage.fetch: the whole GetObject call and body transform run in a
try block whose catch returns undefined, so every thrown error — missing
key and transport failure alike — becomes an absent result. -/
def s3Fetch (resp : S3GetResponse) : Except S3Error (Option Bytes) :=
  match resp with
  | S3GetResponse.ok body => Except.ok body
  | S3GetResponse.err _ => Except.ok none

/-! ## DynamoDB backend (DynamoDbInstallationStore.ts) -/

/-- A DynamoDB AttributeValue, restricted to the members this code reads
(S for key attributes, B for the installation attribute).  An
AttributeValue holding neither member models any other data type. -/
structure AttrVal where
  S : Option String := none
  B : Option Bytes := none
deriving DecidableEq, Repr

/-- An item as the storage reads it: the partition key attribute, the
sort key attribute and the installation attribute, each possibly absent. -/
structure DbItem where
  pk : Option AttrVal := none
  sk : Option AttrVal := none
  inst : Option AttrVal := none
deriving DecidableEq, Repr

/-- A DynamoDbKey: the pair of key attributes. -/
structure DynKey where
  pk : Option AttrVal
  sk : Option AttrVal
deriving DecidableEq, Repr

/-- SimpleKeyGenerator.extractKeyFrom. -/
def extractKeyFrom (item : DbItem) : DynKey := ⟨item.pk, item.sk⟩

/-- SimpleKeyGenerator.equals: both partition key string values must be
present and equal, and likewise both sort key string values. -/
def dynKeyEquals (key1 key2 : DynKey) : Bool :=
  let pk1 := key1.pk.bind AttrVal.S
  let pk2 := key2.pk.bind AttrVal.S
  if pk1 = none ∨ pk2 = none ∨ pk1 ≠ pk2 then false
  else
    let sk1 := key1.sk.bind AttrVal.S
    let sk2 := key2.sk.bind AttrVal.S
    !(sk1 = none ∨ sk2 = none ∨ sk1 ≠ sk2 : Bool)

/-- Array.prototype.join with a separator, as used on the key-part
lists. -/
def joinParts (sep : String) : List String → String
  | [] => ""
  | [x] => x
  | x :: rest => x ++ sep ++ joinParts sep rest

/-- bolt-dynamodb SimpleKeyGenerator.generatePartitionKey. -/
def dynPartitionKey (args : KeyGenArgs) : String :=
  joinParts "$"
    ["Client#" ++ args.clientId,
     "Enterprise#" ++ args.enterpriseId.getD "none",
     "Team#" ++ args.teamId.getD "none"]

/-- bolt-dynamodb SimpleKeyGenerator.sortKeyUserPart. -/
def sortKeyUserPart (userId : Option String) (forDeletion : Bool) : String :=
  if userId = none ∧ forDeletion then "User#"
  else "User#" ++ userId.getD "___bot___"

/-- bolt-dynamodb SimpleKeyGenerator.sortKeyVersionPart. -/
def sortKeyVersionPart (version : Option String) : String :=
  "Version#" ++ version.getD "latest"

/-- bolt-dynamodb SimpleKeyGenerator.generateSortKey. -/
def dynSortKey (args : KeyGenArgs) (forDeletion : Bool) : String :=
  let parts := ["Type#Token", sortKeyUserPart args.userId forDeletion]
  let parts := if !forDeletion then parts ++ [sortKeyVersionPart args.historyVersion]
    else parts
  joinParts "$" parts

/-- bolt-dynamodb SimpleKeyGenerator.generate. -/
def dynGenerate (args : KeyGenArgs) : DynKey :=
  ⟨some { S := some (dynPartitionKey args) }, some { S := some (dynSortKey args false) }⟩

/-- The deletion condition produced by
SimpleKeyGenerator.generateForDeletion: an exact partition value and a
begins_with sort value. -/
structure DynDeletionCond where
  pkValue : String
  skBeginsWith : String
deriving DecidableEq, Repr

/-- bolt-dynamodb SimpleKeyGenerator.generateForDeletion. -/
def dynGenerateForDeletion (args : KeyGenArgs) : DynDeletionCond :=
  { pkValue := dynPartitionKey args, skBeginsWith := dynSortKey args true }

/-- The key condition the deletion Query evaluates on an item:
pk = :pk AND begins_with(sk, :sk), begins_with being character-wise
prefix of the sort value. -/
def dynCondMatches (cond : DynDeletionCond) (item : DbItem) : Bool :=
  match (item.pk.bind AttrVal.S), (item.sk.bind AttrVal.S) with
  | some p, some s => p == cond.pkValue && List.isPrefixOf cond.skBeginsWith.toList s.toList
  | _, _ => false

/-- DynamoDbStorage.delete over a table: listKeysToDelete selects the
items matching the Query condition, then (DELETE_ITEM mode) the batch
delete removes exactly those items.  The result is the set of remaining
items. -/
def dynDelete (cond : DynDeletionCond) (table : List DbItem) : List DbItem :=
  table.filter (fun item => !dynCondMatches cond item)

/-- DynamoDbStorage.extractInstallation: item[attributeName]?.B, wrapped
in Buffer.from when present. -/
def extractInstallationDyn (item : DbItem) : Option Bytes :=
  item.inst.bind AttrVal.B

/-- DynamoDbStorage.fetch: a GetItem failure propagates (no catch); a
response without an item is an absent result; otherwise
extractInstallation. -/
def dynFetch (resp : Except String (Option DbItem)) : Except String (Option Bytes) :=
  match resp with
  | Except.error e => Except.error e
  | Except.ok none => Except.ok none
  | Except.ok (some item) => Except.ok (extractInstallationDyn item)

/-- DynamoDbStorage.deleteAttributes on one item: UpdateExpression
REMOVE #attrName leaves the item in place without the installation
attribute. -/
def removeInstallationAttr (item : DbItem) : DbItem :=
  { item with inst := none }

/-- The inner loop of DynamoDbStorage.fetchMultiple: scan the response
items for the first one whose extracted key equals the requested key. -/
def findMatchingItem (items : List DbItem) (key : DynKey) : Option DbItem :=
  items.find? (fun item => dynKeyEquals (extractKeyFrom item) key)

/-- The outer loop of DynamoDbStorage.fetchMultiple: one result slot per
requested key, in request order. -/
def reconcile (items : List DbItem) : List DynKey → List (Option Bytes)
  | [] => []
  | key :: rest =>
      (match findMatchingItem items key with
       | some item => extractInstallationDyn item
       | none => none) :: reconcile items rest

/-- DynamoDbStorage.fetchMultiple: a single-key request degrades to a
plain fetch; otherwise issue the BatchGetItem and reconcile its item list
(`batchResp`, none when Responses lacks the table) against the requested
keys.  `getResp` is the GetItem outcome for a key. -/
def dynFetchMultiple (getResp : DynKey → Except String (Option DbItem))
    (batchResp : Option (List DbItem)) (keys : List DynKey) :
    Except String (List (Option Bytes)) :=
  match keys with
  | [k] =>
      match dynFetch (getResp k) with
      | Except.error e => Except.error e
      | Except.ok b => Except.ok [b]
  | _ =>
      match batchResp with
      | none => Except.ok []
      | some items => Except.ok (reconcile items keys)

/-! ## Concrete fixtures used by witnesses and counterexamples -/

/-- A user record carrying every token field. -/
def userA : UserRec :=
  { id := "U1", token := some "xoxp-1", refreshToken := some "xoxe-1",
    expiresAt := some 100, scopes := some ["chat"] }

/-- A second user record. -/
def userB : UserRec := { id := "U2", token := some "xoxp-2" }

/-- A bot-slot installation record. -/
def instBot : Installation Unit := { team := some ⟨"T1"⟩, user := userA, payload := () }

/-- A user-slot installation record. -/
def instUser : Installation Unit := { team := some ⟨"T1"⟩, user := userB, payload := () }

/-- A user query for team T1, user U2. -/
def c1Query : InstallQuery := { teamId := some "T1", userId := some "U2" }

/-- A concrete decoded store over S3 object keys. -/
def c1Store : String → Option (Installation Unit) := fun k =>
  if k = "C/none-T1/installer-latest" then some instBot
  else if k = "C/none-T1/installer-U2-latest" then some instUser
  else none

/-- The stored item of user U1 (team T, client C). -/
def c5ItemU1 : DbItem :=
  { pk := some { S := some (dynPartitionKey { clientId := "C", teamId := some "T" }) },
    sk := some { S := some (dynSortKey
      { clientId := "C", teamId := some "T", userId := some "U1" } false) },
    inst := some { B := some [1] } }

/-- The stored item of the distinct user U12 (same team T, same client). -/
def c5ItemU12 : DbItem :=
  { pk := some { S := some (dynPartitionKey { clientId := "C", teamId := some "T" }) },
    sk := some { S := some (dynSortKey
      { clientId := "C", teamId := some "T", userId := some "U12" } false) },
    inst := some { B := some [2] } }

/-- The deletion condition for deleteInstallation of user U1. -/
def c5Cond : DynDeletionCond :=
  dynGenerateForDeletion { clientId := "C", teamId := some "T", userId := some "U1" }

/-- An item whose installation attribute holds a string, not binary data. -/
def c10Item : DbItem := { inst := some { S := some "not-binary" } }

/-- A two-key request: the bot latest key and user U1's latest key. -/
def c6Keys : List DynKey :=
  [dynGenerate { clientId := "C", teamId := some "T" },
   dynGenerate { clientId := "C", teamId := some "T", userId := some "U1" }]

/-! ## Helper lemmas -/

theorem ctrXor_ctrXor (ks : Nat → Nat) (i : Nat) (data : Bytes) :
    ctrXor ks i (ctrXor ks i data) = data := by
  induction data generalizing i with
  | nil => rfl
  | cons b rest ih => simp [ctrXor, Nat.xor_cancel_right, ih]

theorem strBytes_length (s : String) : (strBytes s).length = s.length := by
  simp only [strBytes, List.length_map]
  rfl

theorem promiseAllUnit_ok_iff {ε : Type} (rs : List (Except ε Unit)) :
    promiseAllUnit rs = Except.ok () ↔ ∀ r ∈ rs, r = Except.ok () := by
  induction rs with
  | nil => simp [promiseAllUnit]
  | cons r rest ih =>
    cases r with
    | error e => simp [promiseAllUnit]
    | ok u => cases u; simp [promiseAllUnit, ih]

theorem find_eq_head_filter {β : Type} (l : List β) (p : β → Bool) :
    l.find? p = (l.filter p).head? := by
  induction l with
  | nil => rfl
  | cons a l ih =>
    rw [List.find?_cons, List.filter_cons]
    cases hpa : p a with
    | true => simp
    | false => simpa using ih

theorem perm_eq_of_length_le_one {β : Type} (l₁ l₂ : List β)
    (h : List.Perm l₁ l₂) (hle : l₁.length ≤ 1) : l₁ = l₂ := by
  cases l₁ with
  | nil => exact h.nil_eq
  | cons a t =>
    cases t with
    | nil => exact ((List.perm_singleton).mp h.symm).symm
    | cons b t2 => simp at hle

theorem reconcile_eq_map (items : List DbItem) (keys : List DynKey) :
    reconcile items keys =
      keys.map (fun k => (findMatchingItem items k).bind extractInstallationDyn) := by
  induction keys with
  | nil => rfl
  | cons k rest ih =>
    rw [List.map_cons, ← ih]
    show (match findMatchingItem items k with
      | some item => extractInstallationDyn item
      | none => none) :: reconcile items rest = _
    cases findMatchingItem items k <;> rfl

theorem decrypt_encrypt {scrypt : String → String → Nat → Bytes}
    {keystream : Bytes → Bytes → Bytes → Nat → Nat}
    (o : BinaryCodecOptions) (iv data : Bytes)
    (hiv : ∀ e, o.encryption = some e → iv.length = e.ivLength)
    (halg : ∀ e, o.encryption = some e → 0 < e.algorithm.length) :
    decryptIfNeeded scrypt keystream o (encryptIfNeeded scrypt keystream o iv data) =
      Except.ok data := by
  cases ho : o.encryption with
  | none => simp [encryptIfNeeded, decryptIfNeeded, ho]
  | some e =>
    have hlen := hiv e ho
    have hpos := halg e ho
    simp only [encryptIfNeeded, ho, decryptIfNeeded]
    rw [if_neg (by omega : ¬e.algorithm.length = 0)]
    rw [List.take_left' (strBytes_length e.algorithm),
      List.drop_left' (strBytes_length e.algorithm)]
    simp only
    rw [List.take_left' hlen, List.drop_left' hlen, ctrXor_ctrXor]

theorem decompress_compress {brotliC : Bytes → Bytes} {brotliD : Bytes → Option Bytes}
    (o : BinaryCodecOptions) (data : Bytes)
    (hbr : o.compression = true → brotliD (brotliC data) = some data) :
    decompressIfNeeded brotliD (compressIfNeeded brotliC o data) = Except.ok data := by
  cases hc : o.compression with
  | false => simp [compressIfNeeded, decompressIfNeeded, hc]
  | true => simp [compressIfNeeded, decompressIfNeeded, hc, hbr hc]

/-! ## Claim theorems -/

/-- C3: for every JSON-serializable record r (one whose JSON
serialization parses back to r) and every codec configuration — the
plain JSON codec, and the binary codec with compression on or off and
encryption on or off — decode(encode(r)) returns r.  The hypotheses on
the Brotli and IV parameters state the external library contracts the
code relies on (Brotli round-trips and randomBytes(ivLength) has length
ivLength); the algorithm-name hypothesis holds for every real cipher
name. -/
theorem c3_codec_roundtrip {α : Type}
    (jsonEnc : α → Bytes) (jsonDec : Bytes → Option α)
    (brotliC : Bytes → Bytes) (brotliD : Bytes → Option Bytes)
    (scrypt : String → String → Nat → Bytes)
    (keystream : Bytes → Bytes → Bytes → Nat → Nat)
    (o : BinaryCodecOptions) (iv : Bytes) (r : α)
    (hjson : jsonDec (jsonEnc r) = some r)
    (hbrotli : o.compression = true → brotliD (brotliC (jsonEnc r)) = some (jsonEnc r))
    (hiv : ∀ e, o.encryption = some e → iv.length = e.ivLength)
    (halg : ∀ e, o.encryption = some e → 0 < e.algorithm.length) :
    jsonCodecDecode jsonDec (jsonCodecEncode jsonEnc r) = Except.ok r ∧
    binDecode jsonDec brotliD scrypt keystream o
      (binEncode jsonEnc brotliC scrypt keystream o iv r) = Except.ok r := by
  constructor
  · simp [jsonCodecEncode, jsonCodecDecode, hjson]
  · show binDecode jsonDec brotliD scrypt keystream o
      (1 :: encryptIfNeeded scrypt keystream o iv
        (compressIfNeeded brotliC o (jsonEnc r))) = Except.ok r
    rw [binDecode]
    rw [if_neg (by omega : ¬(1 : Nat) = 0x7b), if_pos rfl]
    rw [binDecodeV1, decrypt_encrypt o iv _ hiv halg, Except.bind,
      decompress_compress o (jsonEnc r) hbrotli, Except.bind, hjson]

/-- C3 witness: the round-trip theorem evaluated at a concrete record,
concrete (toy) external primitives and the default-algorithm
configuration with compression and encryption both on. -/
theorem c3_codec_roundtrip_witness :
    binDecode (fun l : Bytes => l.head?) some (fun _ _ _ => [7]) (fun _ _ _ _ => 3)
      { encryption := some { password := "p", salt := "s" }, compression := true }
      (binEncode (fun n : Nat => [n]) id (fun _ _ _ => [7]) (fun _ _ _ _ => 3)
        { encryption := some { password := "p", salt := "s" }, compression := true }
        (List.replicate 16 0) 5) = Except.ok 5 :=
  (c3_codec_roundtrip (fun n : Nat => [n]) (fun l => l.head?) id some
    (fun _ _ _ => [7]) (fun _ _ _ _ => 3)
    { encryption := some { password := "p", salt := "s" }, compression := true }
    (List.replicate 16 0) 5 rfl (fun _ => rfl)
    (by intro e he; cases he; rfl)
    (by intro e he; cases he; decide)).2

/-- C9: with encryption disabled the binary encoder ignores the random
IV draw, so two calls agree; with encryption enabled the IV is embedded
in the output, so two calls whose fresh random IVs differ produce
different buffers. -/
theorem c9_encode_iv_determinism {α : Type}
    (jsonEnc : α → Bytes) (brotliC : Bytes → Bytes)
    (scrypt : String → String → Nat → Bytes)
    (keystream : Bytes → Bytes → Bytes → Nat → Nat)
    (o : BinaryCodecOptions) (r : α) :
    (o.encryption = none → ∀ iv₁ iv₂ : Bytes,
      binEncode jsonEnc brotliC scrypt keystream o iv₁ r =
        binEncode jsonEnc brotliC scrypt keystream o iv₂ r) ∧
    (∀ e, o.encryption = some e → ∀ iv₁ iv₂ : Bytes,
      iv₁.length = e.ivLength → iv₂.length = e.ivLength → iv₁ ≠ iv₂ →
      binEncode jsonEnc brotliC scrypt keystream o iv₁ r ≠
        binEncode jsonEnc brotliC scrypt keystream o iv₂ r) := by
  constructor
  · intro ho iv₁ iv₂
    simp [binEncode, encryptIfNeeded, ho]
  · intro e ho iv₁ iv₂ h1 h2 hne heq
    simp only [binEncode, encryptIfNeeded, ho, List.cons.injEq, true_and] at heq
    have h3 := List.append_cancel_left heq
    simp only [List.cons.injEq, true_and] at h3
    exact hne (List.append_inj h3 (h1.trans h2.symm)).1

/-- C9 witness: with the default encrypted configuration, two distinct
16-byte IVs yield different encodings of the same record. -/
theorem c9_encode_iv_determinism_witness :
    binEncode (fun n : Nat => [n]) id (fun _ _ _ => [7]) (fun _ _ _ _ => 3)
      { encryption := some { password := "p", salt := "s" }, compression := false }
      (List.replicate 16 0) 5 ≠
    binEncode (fun n : Nat => [n]) id (fun _ _ _ => [7]) (fun _ _ _ _ => 3)
      { encryption := some { password := "p", salt := "s" }, compression := false }
      (1 :: List.replicate 15 0) 5 :=
  (c9_encode_iv_determinism (fun n : Nat => [n]) id (fun _ _ _ => [7])
    (fun _ _ _ _ => 3)
    { encryption := some { password := "p", salt := "s" }, compression := false }
    5).2 _ rfl (List.replicate 16 0) (1 :: List.replicate 15 0)
    (by decide) (by decide) (by decide)

/-- C1: the fetchInstallation merge policy.  With the bot-scope latest
record found and a user-scope record requested (query.userId truthy) and
found, the result is the bot record with only its user field replaced by
the user record's user field; with the bot record found but no user
record requested or found, the result is the bot record with
user.token/refreshToken/expiresAt/scopes removed and user.id kept; with
only a user record found, the result is that record unchanged; with
neither, a not-found error. -/
theorem c1_fetch_merge {KEY α : Type} (keyGen : KeyGenArgs → KEY)
    (store : KEY → Option (Installation α)) (clientId : String) (q : InstallQuery) :
    let args : KeyGenArgs :=
      { clientId := clientId, enterpriseId := q.enterpriseId, teamId := q.teamId }
    let botKey := keyGen args
    let userKey := keyGen { args with userId := q.userId }
    (∀ a u, store botKey = some a → jsTruthy q.userId = true → store userKey = some u →
      fetchInstallation keyGen store clientId q = Except.ok { a with user := u.user }) ∧
    (∀ a, store botKey = some a → (jsTruthy q.userId = true → store userKey = none) →
      fetchInstallation keyGen store clientId q =
        Except.ok { a with user := stripUserTokens a.user }) ∧
    (∀ u, store botKey = none → jsTruthy q.userId = true → store userKey = some u →
      fetchInstallation keyGen store clientId q = Except.ok u) ∧
    (store botKey = none → (jsTruthy q.userId = true → store userKey = none) →
      fetchInstallation keyGen store clientId q =
        Except.error "No valid installation found") := by
  intro args botKey userKey
  refine ⟨?_, ?_, ?_, ?_⟩
  · intro a u ha ht hu
    simp [fetchInstallation, fetchKeys, ht, ha, hu, botKey, userKey, args]
  · intro a ha hu
    cases ht : jsTruthy q.userId with
    | false => simp [fetchInstallation, fetchKeys, ht, ha, botKey, args]
    | true => simp [fetchInstallation, fetchKeys, ht, ha, hu ht, botKey, userKey, args]
  · intro u ha ht hu
    simp [fetchInstallation, fetchKeys, ht, ha, hu, botKey, userKey, args]
  · intro ha hu
    cases ht : jsTruthy q.userId with
    | false => simp [fetchInstallation, fetchKeys, ht, ha, botKey, args]
    | true => simp [fetchInstallation, fetchKeys, ht, ha, hu ht, botKey, userKey, args]

/-- C1 witness: over the S3 key generator, a store holding a bot-slot
record and a user-slot record for team T1 returns the merged record for
the user query. -/
theorem c1_fetch_merge_witness :
    fetchInstallation s3Generate c1Store "C" c1Query =
      Except.ok { instBot with user := instUser.user } := by
  have h := c1_fetch_merge s3Generate c1Store "C" c1Query
  exact h.1 instBot instUser (by decide) (by decide) (by decide)

/-- C2: storeInstallation writes the one encoding of the record to the
bot-scope latest key and the user-scope latest key; with historical data
enabled it also writes that encoding to bot and user historical keys
sharing one version token drawn from the single Date.now() call (only
`times 0` is consulted); and the call resolves exactly when every issued
write resolves. -/
theorem c2_store_writes {KEY α ε : Type} (keyGen : KeyGenArgs → KEY)
    (encode : Installation α → Bytes) (writeRes : KEY × Bytes → Except ε Unit)
    (clientId : String) (hist : Bool) (times : Nat → Nat) (inst : Installation α) :
    let argsForBot : KeyGenArgs :=
      { clientId := clientId, enterpriseId := inst.enterprise.map IdObj.id,
        teamId := inst.team.map IdObj.id }
    let argsForUser := { argsForBot with userId := some inst.user.id }
    let data := encode inst
    let ws := storeInstallationWrites keyGen encode clientId hist times inst
    ((keyGen argsForBot, data) ∈ ws ∧ (keyGen argsForUser, data) ∈ ws) ∧
    (∀ p ∈ ws, p.2 = data) ∧
    (hist = true →
      (keyGen { argsForBot with historyVersion := some (toString (times 0)) }, data) ∈ ws ∧
      (keyGen { argsForUser with historyVersion := some (toString (times 0)) }, data) ∈ ws ∧
      ws.length = 4) ∧
    (hist = false → ws.length = 2) ∧
    (∀ times₂ : Nat → Nat, times₂ 0 = times 0 →
      storeInstallationWrites keyGen encode clientId hist times₂ inst = ws) ∧
    (storeInstallation keyGen encode writeRes clientId hist times inst = Except.ok () ↔
      ∀ p ∈ ws, writeRes p = Except.ok ()) := by
  intro argsForBot argsForUser data ws
  refine ⟨?_, ?_, ?_, ?_, ?_, ?_⟩
  · cases hist <;>
      simp [ws, storeInstallationWrites, argsForBot, argsForUser, data]
  · intro p hp
    cases hist <;> simp [ws, storeInstallationWrites] at hp <;>
      rcases hp with h | h | h | h <;> simp_all [data]
  · intro hh
    subst hh
    simp [ws, storeInstallationWrites, argsForBot, argsForUser, data]
  · intro hh
    subst hh
    simp [ws, storeInstallationWrites]
  · intro times₂ h0
    cases hist <;> simp [ws, storeInstallationWrites, h0]
  · rw [storeInstallation, promiseAllUnit_ok_iff]
    constructor
    · intro h p hp
      exact h (writeRes p) (List.mem_map_of_mem writeRes hp)
    · intro h x hx
      rcases List.mem_map.mp hx with ⟨p, hp, hpx⟩
      rw [← hpx]
      exact h p hp

/-- C2 witness: with historical data enabled, the write set over the S3
key generator has four entries and the call resolves when every write
resolves. -/
theorem c2_store_writes_witness :
    (storeInstallationWrites s3Generate (fun _ => [1, 2]) "C" true (fun _ => 42)
      instBot).length = 4 ∧
    storeInstallation s3Generate (fun _ => [1, 2])
      (fun _ => (Except.ok () : Except String Unit)) "C" true (fun _ => 42) instBot =
      Except.ok () := by
  have h := c2_store_writes s3Generate (fun _ => [1, 2])
    (fun _ => (Except.ok () : Except String Unit)) "C" true (fun _ => 42) instBot
  exact ⟨(h.2.2.1 rfl).2.2, h.2.2.2.2.2.mpr (fun p _ => rfl)⟩

/-- C5: deletion-scope evaluation at the failing input.  The DynamoDB
deletion condition for user U1 of team T — begins_with on the sort value
"Type#Token$User#U1", which lacks a terminating "$" — also matches the
latest record of the distinct user U12 of the same team, so deleting
{teamId: T, userId: U1} removes U12's record as well: the table holding
exactly U1's and U12's latest records is left empty. -/
theorem c5_delete_scope_overreach :
    c5Cond.skBeginsWith = "Type#Token$User#U1" ∧
    dynCondMatches c5Cond c5ItemU12 = true ∧
    dynDelete c5Cond [c5ItemU1, c5ItemU12] = [] ∧
    ("U12" : String) ≠ "U1" := by
  refine ⟨rfl, rfl, rfl, by decide⟩

/-- C6: DynamoDB fetchMultiple returns one slot per requested key in
request order: for two or more keys the BatchGetItem response items are
reconciled by key equality, slot i holding the installation bytes of the
first response item whose key equals key i and absent when no item
matches; the result is insensitive to the order of the response items
when response keys are unique; and a single-key request degrades to a
plain fetch of that key. -/
theorem c6_fetchMultiple_alignment
    (getResp : DynKey → Except String (Option DbItem)) (items : List DbItem) :
    (∀ keys : List DynKey, 2 ≤ keys.length →
      dynFetchMultiple getResp (some items) keys = Except.ok (reconcile items keys)) ∧
    (∀ keys : List DynKey, (reconcile items keys).length = keys.length) ∧
    (∀ keys : List DynKey, ∀ i : Nat,
      (reconcile items keys)[i]? =
        (keys[i]?).map (fun k => (findMatchingItem items k).bind extractInstallationDyn)) ∧
    (∀ keys : List DynKey, ∀ items₂ : List DbItem, List.Perm items items₂ →
      (∀ k : DynKey,
        (items.filter (fun it => dynKeyEquals (extractKeyFrom it) k)).length ≤ 1) →
      reconcile items₂ keys = reconcile items keys) ∧
    (∀ k : DynKey, dynFetchMultiple getResp (some items) [k] =
      match dynFetch (getResp k) with
      | Except.error e => Except.error e
      | Except.ok b => Except.ok [b]) := by
  refine ⟨?_, ?_, ?_, ?_, ?_⟩
  · intro keys h2
    match keys, h2 with
    | k1 :: k2 :: rest, _ => rfl
  · intro keys
    rw [reconcile_eq_map, List.length_map]
  · intro keys i
    rw [reconcile_eq_map, List.getElem?_map]
  · intro keys items₂ hperm huniq
    have hfind : ∀ k : DynKey, findMatchingItem items₂ k = findMatchingItem items k := by
      intro k
      rw [findMatchingItem, findMatchingItem, find_eq_head_filter, find_eq_head_filter,
        perm_eq_of_length_le_one _ _ (hperm.filter _) (huniq k)]
    rw [reconcile_eq_map, reconcile_eq_map]
    simp only [hfind]
  · intro k
    rfl

/-- C6 witness: the alignment theorem applied to a concrete two-key
request against a one-item response. -/
theorem c6_fetchMultiple_alignment_witness :
    dynFetchMultiple (fun _ => Except.ok none) (some [c5ItemU1]) c6Keys =
      Except.ok (reconcile [c5ItemU1] c6Keys) :=
  (c6_fetchMultiple_alignment (fun _ => Except.ok none) [c5ItemU1]).1 c6Keys
    (by rw [c6Keys]; decide)

/-- C7: the S3 object key is
clientId/(enterpriseId or none)-(teamId or none)/installer(-userId
when present)-(version or latest); the DynamoDB partition value is
Client#clientId$Enterprise#(enterpriseId or none)$Team#(teamId or none)
and the sort value is
Type#Token$User#(userId or bot sentinel)$Version#(version or latest). -/
theorem c7_key_formats (args : KeyGenArgs) :
    s3Generate args =
      args.clientId ++ "/" ++ (args.enterpriseId.getD "none") ++ "-" ++
        (args.teamId.getD "none") ++ "/installer" ++
        (match args.userId with
         | some u => "-" ++ u
         | none => "") ++ "-" ++ (args.historyVersion.getD "latest") ∧
    dynPartitionKey args =
      "Client#" ++ args.clientId ++ "$Enterprise#" ++ (args.enterpriseId.getD "none") ++
        "$Team#" ++ (args.teamId.getD "none") ∧
    dynSortKey args false =
      "Type#Token$User#" ++ (args.userId.getD "___bot___") ++ "$Version#" ++
        (args.historyVersion.getD "latest") := by
  obtain ⟨c, e, t, u, v⟩ := args
  refine ⟨?_, ?_, ?_⟩
  · cases u <;> simp only [s3Generate, String.append_assoc] <;> rfl
  · simp only [dynPartitionKey, joinParts, String.append_assoc]
    rfl
  · cases u <;>
      simp only [dynSortKey, sortKeyUserPart, sortKeyVersionPart, joinParts,
        String.append_assoc] <;> rfl

/-- C8 counterexample: a transport failure of the GetObject call is not
surfaced: S3Storage.fetch catches it and returns an absent result. -/
theorem c8_transport_error_swallowed :
    s3Fetch (S3GetResponse.err (S3Error.transport "network failure")) =
      Except.ok none ∧
    s3Fetch (S3GetResponse.err (S3Error.transport "network failure")) ≠
      Except.error (S3Error.transport "network failure") := by
  exact ⟨rfl, fun h => Except.noConfusion h⟩

/-- C8 amended: on the S3 storage adapter a missing key yields an absent
result, and every other GetObject failure — network, permission,
throttling — is likewise converted into an absent result by the
catch-all handler; fetch never surfaces an error. -/
theorem c8_fetch_never_errors :
    (s3Fetch (S3GetResponse.err S3Error.noSuchKey) = Except.ok none) ∧
    (∀ e : S3Error, s3Fetch (S3GetResponse.err e) = Except.ok none) ∧
    (∀ resp : S3GetResponse, ∃ b : Option Bytes, s3Fetch resp = Except.ok b) := by
  refine ⟨rfl, fun e => rfl, fun resp => ?_⟩
  cases resp with
  | ok body => exact ⟨body, rfl⟩
  | err e => exact ⟨none, rfl⟩

/-- C10: a DynamoDB fetch of an item that exists but lacks the
installation attribute, or whose attribute holds no binary value,
returns an absent result rather than an error; in particular the row a
DELETE_ATTRIBUTE-mode deletion leaves behind reads back exactly like a
missing record, and the batch path's extractInstallation agrees. -/
theorem c10_fetch_missing_attribute (item : DbItem) :
    (item.inst = none → dynFetch (Except.ok (some item)) = Except.ok none) ∧
    (∀ av : AttrVal, item.inst = some av → av.B = none →
      dynFetch (Except.ok (some item)) = Except.ok none) ∧
    (dynFetch (Except.ok (some (removeInstallationAttr item))) = Except.ok none) ∧
    (item.inst = none → extractInstallationDyn item = none) := by
  refine ⟨?_, ?_, ?_, ?_⟩
  · intro h
    simp [dynFetch, extractInstallationDyn, h]
  · intro av h hb
    simp [dynFetch, extractInstallationDyn, h, hb]
  · simp [dynFetch, extractInstallationDyn, removeInstallationAttr]
  · intro h
    simp [extractInstallationDyn, h]

/-- C10 witness: fetching an item whose installation attribute holds a
string value yields an absent result. -/
theorem c10_fetch_missing_attribute_witness :
    dynFetch (Except.ok (some c10Item)) = Except.ok none :=
  (c10_fetch_missing_attribute c10Item).2.1 { S := some "not-binary" } rfl rfl

end SlackBoltAws
